import Mathlib

/-!
Shallow embedding of the client-side trade ledger of the swing-trading
journal application, together with its derived analytics and its inbound
and outbound adapters, and proofs of the specified properties.

Conventions of the embedding:
* JavaScript numbers carrying prices, share counts and P/L values are
  modelled as rationals (`ℚ`).
* JavaScript strings are modelled as `String`; for the character-level
  CSV escaping the field text is modelled as `List Char` (the source
  only rewrites single characters there).
* Optional (possibly `undefined`) fields of the `Trade` record are
  modelled as `Option`.
* The external builtins `Date.parse`/`getTime` and `parseFloat`, and the
  fresh-id generators, are parameters of the definitions that call them.
-/

/-- Chart screenshot attachment of a trade (`types.ts`, field `chartImage`). -/
structure ChartImage where
  base64 : String
  analysis : Option String := none
deriving Repr, DecidableEq

/-- The `Trade` record of `types.ts`.  `status` is the string union
`'open' | 'closed'`; optional fields are `Option`-valued. -/
structure Trade where
  id : String
  ticker : String
  entryDate : String
  entryPrice : ℚ
  shares : ℚ
  strategy : String
  notes : String
  status : String
  mindset : Option String := none
  stopLoss : Option ℚ := none
  takeProfit : Option ℚ := none
  exitDate : Option String := none
  exitPrice : Option ℚ := none
  chartImage : Option ChartImage := none
  pnl : Option ℚ := none
  isWin : Option Bool := none
deriving Repr, DecidableEq

/-- JavaScript `x || d` for an optional string: both `undefined` and the
empty string are falsy and yield the default. -/
def jsOrString (x : Option String) (d : String) : String :=
  match x with
  | some s => if s = "" then d else s
  | none => d

/-- JavaScript `x || 0` for an optional number: `undefined` (and `0`
itself) yield `0`. -/
def jsOrZero (x : Option ℚ) : ℚ :=
  x.getD 0

/-- The `handleSaveTrade` upsert of `App` (`index.tsx`): `findIndex` on the
trade id, replace in place on a hit, otherwise prepend. -/
def handleSaveTrade (trade : Trade) (prevTrades : List Trade) : List Trade :=
  match prevTrades.findIdx? (fun t => t.id == trade.id) with
  | some index => prevTrades.set index trade
  | none => trade :: prevTrades

/-- The `handleDeleteTrade` handler of `App`: a `window.confirm` guard, then
`filter` on the id. -/
def handleDeleteTrade (tradeId : String) (confirmed : Bool)
    (prevTrades : List Trade) : List Trade :=
  if confirmed then prevTrades.filter (fun t => t.id != tradeId) else prevTrades

/-- The app state relevant to persistence: the in-memory `trades` React
state and the value stored under the durable `swing-trades` local-storage
key (modelled, through `JSON.stringify`, as the trade list itself). -/
structure AppState where
  trades : List Trade
  storage : List Trade
deriving Repr, DecidableEq

/-- One ledger mutation issued by the view layer of `App`: saving a trade
(new or edited), deleting by id behind a confirm dialog, or bulk-replacing
the whole ledger with an imported list (broker or spreadsheet import). -/
inductive LedgerOp where
  | save (trade : Trade)
  | delete (tradeId : String) (confirmed : Bool)
  | importReplace (imported : List Trade)
deriving Repr, DecidableEq

/-- The in-memory effect of a ledger mutation on the `trades` state. -/
def applyTrades (op : LedgerOp) (prevTrades : List Trade) : List Trade :=
  match op with
  | .save t => handleSaveTrade t prevTrades
  | .delete tid c => handleDeleteTrade tid c prevTrades
  | .importReplace ts => ts

/-- The persistence effect
`useEffect(() => localStorage.setItem('swing-trades', JSON.stringify(trades)), [trades])`:
React runs it after every commit that changed `trades` and before the next
user event, rewriting the stored snapshot wholesale. -/
def persistEffect (s : AppState) : AppState :=
  { s with storage := s.trades }

/-- One completed ledger operation: the state update followed by the
persistence effect that runs before control returns to the user. -/
def applyOp (s : AppState) (op : LedgerOp) : AppState :=
  persistEffect { s with trades := applyTrades op s.trades }

/-- A whole sequence of ledger operations. -/
def applyOps (s : AppState) (ops : List LedgerOp) : AppState :=
  ops.foldl applyOp s

/-- The draft state of `TradeModal` (every form field, numeric fields
already coerced through `parseFloat(value) || 0`). -/
structure TradeForm where
  ticker : String
  entryDate : String
  entryPrice : ℚ
  shares : ℚ
  strategy : String
  notes : String
  mindset : String
  stopLoss : ℚ
  takeProfit : ℚ
  exitDate : String
  exitPrice : ℚ
deriving Repr, DecidableEq

/-- The edit prefill of `TradeModal` (its `useEffect` when `tradeToEdit` is
set): `id`, `status`, `pnl`, `isWin` are stripped, and the optional fields
are defaulted with `||` (empty exit date, zero prices, mindset `Neutral`). -/
def prefillForm (t : Trade) : TradeForm :=
  { ticker := t.ticker
    entryDate := t.entryDate
    entryPrice := t.entryPrice
    shares := t.shares
    strategy := t.strategy
    notes := t.notes
    mindset := jsOrString t.mindset "Neutral"
    stopLoss := jsOrZero t.stopLoss
    takeProfit := jsOrZero t.takeProfit
    exitDate := jsOrString t.exitDate ""
    exitPrice := jsOrZero t.exitPrice }

/-- The closing test of `TradeModal.handleSubmit`:
`trade.exitDate && trade.exitPrice && trade.exitPrice > 0` (a nonempty exit
date, a nonzero exit price, and that price positive). -/
def tradeModalIsClosing (form : TradeForm) : Bool :=
  form.exitDate != "" && form.exitPrice != 0 && decide (0 < form.exitPrice)

/-- The trade committed by `TradeModal.handleSubmit`: status, exit fields and
the frozen `pnl`/`isWin` pair are recomputed from the form on every save;
the id is kept from `tradeToEdit` when editing (`tradeToEdit?.id || newId`).
`newId` stands for `new Date().toISOString()`, `imageBase64`/`analysis` for
the chart-image state. -/
def tradeModalSubmit (form : TradeForm) (tradeToEdit : Option Trade)
    (newId : String) (imageBase64 : Option String) (analysis : String) : Trade :=
  let isClosing := tradeModalIsClosing form
  let pnl : Option ℚ :=
    if isClosing then some ((form.exitPrice - form.entryPrice) * form.shares) else none
  let isWin : Option Bool :=
    if isClosing then some (decide (0 < (form.exitPrice - form.entryPrice) * form.shares))
    else none
  { id := jsOrString (tradeToEdit.map (fun t => t.id)) newId
    ticker := form.ticker
    entryDate := form.entryDate
    entryPrice := form.entryPrice
    shares := form.shares
    strategy := form.strategy
    notes := form.notes
    mindset := some form.mindset
    stopLoss := some form.stopLoss
    takeProfit := some form.takeProfit
    status := if isClosing then "closed" else "open"
    exitDate := if isClosing then some form.exitDate else none
    exitPrice := if isClosing then some form.exitPrice else none
    chartImage := imageBase64.map (fun b => { base64 := b, analysis := some analysis })
    pnl := pnl
    isWin := isWin }

/-- The commit of `ExitTradeModal.handleSubmit`: the guard
`!selectedTrade || !exitDate || !exitPrice || exitPrice <= 0` aborts with an
alert (`none`); otherwise the selected open trade is closed in place with a
freshly computed `pnl`/`isWin` pair and the exit notes appended. -/
def exitTradeModalSubmit (selectedTrade : Option Trade) (exitDate : String)
    (exitPrice : ℚ) (notes : String) : Option Trade :=
  match selectedTrade with
  | none => none
  | some t =>
    if exitDate = "" ∨ exitPrice = 0 ∨ exitPrice ≤ 0 then none
    else
      let pnl := (exitPrice - t.entryPrice) * t.shares
      some { t with
              status := "closed"
              exitDate := some exitDate
              exitPrice := some exitPrice
              pnl := some pnl
              isWin := some (decide (0 < pnl))
              notes :=
                if t.notes ≠ "" then t.notes ++ "\n\nExit Notes: " ++ notes
                else "Exit Notes: " ++ notes }

/-- `JournalView`: `trades.filter(t => t.status === 'closed')`. -/
def closedTrades (trades : List Trade) : List Trade :=
  trades.filter (fun t => t.status == "closed")

/-- `JournalView`: `trades.filter(t => t.status === 'open')`. -/
def openTrades (trades : List Trade) : List Trade :=
  trades.filter (fun t => t.status == "open")

/-- `JournalView`: `closedTrades.reduce((acc, trade) => acc + (trade.pnl || 0), 0)`. -/
def totalPnl (trades : List Trade) : ℚ :=
  (closedTrades trades).foldl (fun acc trade => acc + jsOrZero trade.pnl) 0

/-- `JournalView`: `closedTrades.filter(t => t.isWin).length` (an `undefined`
win flag is falsy). -/
def winningTradesCount (trades : List Trade) : Nat :=
  ((closedTrades trades).filter (fun t => t.isWin.getD false)).length

/-- `JournalView`:
`closedTrades.length > 0 ? (winningTrades / closedTrades.length) * 100 : 0`. -/
def winRate (trades : List Trade) : ℚ :=
  if 0 < (closedTrades trades).length then
    ((winningTradesCount trades : ℚ) / ((closedTrades trades).length : ℚ)) * 100
  else 0

/-- The live-price map `Record<string, number | null>` of `JournalView`,
modelled as an association list: a ticker can be absent (`undefined`) or
mapped to `null` (`some none`) or to a number (`some (some price)`). -/
def lookupPrice (liveData : List (String × Option ℚ)) (ticker : String) :
    Option (Option ℚ) :=
  liveData.lookup ticker

/-- `JournalView`'s `totalUnrealizedPnl` reduce: each open trade adds
`(currentPrice - entryPrice) * shares` exactly when
`typeof currentPrice === 'number'` (so absent and `null` prices are skipped). -/
def totalUnrealizedPnl (liveData : List (String × Option ℚ))
    (trades : List Trade) : ℚ :=
  (openTrades trades).foldl
    (fun acc trade =>
      match lookupPrice liveData trade.ticker with
      | some (some currentPrice) => acc + (currentPrice - trade.entryPrice) * trade.shares
      | _ => acc)
    0

/-- One point of `JournalView`'s `chartData`. -/
structure ChartPoint where
  name : String
  pnl : Option ℚ
  cumulativePnl : ℚ
deriving Repr, DecidableEq

/-- The comparator key of the chart sort:
`new Date(a.entryDate).getTime() - new Date(b.entryDate).getTime()` is
nonpositive exactly when the key of `a` is at most the key of `b`.  The
external `Date` parser is the parameter `getTime`. -/
def entryDateLe (getTime : String → Int) (a b : Trade) : Bool :=
  decide (getTime a.entryDate ≤ getTime b.entryDate)

/-- The closed trades sorted ascending by entry date:
`closedTrades.slice().sort((a, b) => ...)`.  `Array.prototype.sort` is a
stable sort, embedded as a stable merge sort on the same key order. -/
def sortedClosedTrades (getTime : String → Int) (trades : List Trade) : List Trade :=
  (closedTrades trades).mergeSort (entryDateLe getTime)

/-- The body of the `chartData` reduce: each sorted closed trade pushes a
point holding its own `pnl` and the running total
`(acc[index - 1]?.cumulativePnl || 0) + (trade.pnl || 0)`. -/
def buildChartData (idx : Nat) (cumulative : ℚ) : List Trade → List ChartPoint
  | [] => []
  | trade :: rest =>
    let cumulativePnl := cumulative + jsOrZero trade.pnl
    { name := "Trade " ++ toString (idx + 1)
      pnl := trade.pnl
      cumulativePnl := cumulativePnl } :: buildChartData (idx + 1) cumulativePnl rest

/-- `JournalView`'s `chartData`: the sorted closed trades folded into
cumulative equity-curve points. -/
def chartData (getTime : String → Int) (trades : List Trade) : List ChartPoint :=
  buildChartData 0 0 (sortedClosedTrades getTime trades)

/-- One character of `value.replace(/"/g, '""')`: each quote is doubled. -/
def doubleQuoteChar (c : Char) : List Char :=
  if c = '\"' then ['\"', '\"'] else [c]

/-- `value.replace(/"/g, '""')` on the characters of a field. -/
def escapeQuotes (s : List Char) : List Char :=
  s.flatMap doubleQuoteChar

/-- One character of `.replace(/\n/g, ' ')`: a newline becomes a space. -/
def newlineToSpace (c : Char) : Char :=
  if c = '\n' then ' ' else c

/-- The string-field serialization of `handleDownloadCsv`
(`JournalView`): double the embedded quotes, turn newlines into spaces,
wrap the result in quotes. -/
def csvStringField (value : List Char) : List Char :=
  '\"' :: ((escapeQuotes value).map newlineToSpace ++ ['\"'])

/-- Modelled from the spec: the repository exports CSV but has no CSV
parser, so parsing a field back out follows the spec's CSV contract
(§4.3/§8) — a quoted field is unwrapped and each doubled quote character
collapses back to one quote.  This is the undoubling pass. -/
def csvUnquote : List Char → List Char
  | [] => []
  | [c] => [c]
  | c₁ :: c₂ :: rest =>
    if c₁ = '\"' ∧ c₂ = '\"' then '\"' :: csvUnquote rest
    else c₁ :: csvUnquote (c₂ :: rest)

/-- Modelled from the spec: parsing one CSV field — strip the wrapping
quotes of a quoted field and undouble the embedded quotes. -/
def csvParseStringField (field : List Char) : List Char :=
  match field with
  | '\"' :: rest => csvUnquote rest.dropLast
  | other => other

/-- JavaScript `row[i]` on a spreadsheet row (`undefined` past the end). -/
def cellOr (row : List String) (i : Nat) (d : String) : String :=
  jsOrString (row.get? i) d

/-- JavaScript `parseFloat(row[i]) || 0`: the external `parseFloat` is the
parameter `pf` (returning `none` for `NaN`); an absent cell parses to `NaN`
and the `|| 0` turns both `NaN` and `0` into `0`. -/
def parsedNumCell (pf : String → Option ℚ) (row : List String) (i : Nat) : ℚ :=
  match row.get? i with
  | some s => (pf s).getD 0
  | none => 0

/-- One row of `fetchTradesFromSheet` (`googleSheetsService.ts`): rows
shorter than 4 cells are skipped as malformed; the status is
`row[7] === 'open' ? 'open' : 'closed'`; rows whose ticker or entry date is
missing are skipped with a warning; a closed row carries exit fields,
`pnl` and `isWin` parsed from the remaining cells (defaulting through `||`),
an open row carries the base fields only.  `freshId` stands for the
generated `sheet-import-...` id used when the id cell is empty. -/
def parseSheetRow (pf : String → Option ℚ) (freshId : String)
    (row : List String) : Option Trade :=
  if row.length < 4 then none
  else
    let status := if row.get? 7 = some "open" then "open" else "closed"
    let id := cellOr row 0 freshId
    let ticker := cellOr row 1 ""
    let entryDate := cellOr row 2 ""
    let entryPrice := parsedNumCell pf row 3
    let shares := parsedNumCell pf row 4
    let strategy := cellOr row 5 ""
    let notes := cellOr row 6 ""
    if ticker ≠ "" ∧ entryDate ≠ "" then
      if status = "closed" then
        some { id := id, ticker := ticker, entryDate := entryDate
               entryPrice := entryPrice, shares := shares, strategy := strategy
               notes := notes, status := status
               exitDate := some (cellOr row 8 "")
               exitPrice := some (parsedNumCell pf row 9)
               pnl := some (parsedNumCell pf row 10)
               isWin := some (decide (row.get? 11 = some "Win")) }
      else
        some { id := id, ticker := ticker, entryDate := entryDate
               entryPrice := entryPrice, shares := shares, strategy := strategy
               notes := notes, status := status }
    else none

/-- The whole inbound spreadsheet import (`rows.forEach` of
`fetchTradesFromSheet`): every parseable row is pushed, every malformed row
is skipped with a logged warning, and the surviving trades are returned in
row order.  `freshId` maps each row index to its generated fallback id. -/
def fetchTradesFromSheet (pf : String → Option ℚ) (freshId : Nat → String)
    (rows : List (List String)) : List Trade :=
  rows.enum.filterMap (fun p => parseSheetRow pf (freshId p.1) p.2)

/-- A sample open trade used as concrete input in witnesses. -/
def sampleOpenTrade : Trade :=
  { id := "t-1", ticker := "AAPL", entryDate := "2024-01-02", entryPrice := 100,
    shares := 10, strategy := "Breakout", notes := "momentum setup", status := "open" }

/-- A sample trade closed through the closing path: `pnl = (60 - 50) * 4 = 40`
and `isWin = (pnl > 0)` were computed and stored at close time. -/
def sampleClosedTrade : Trade :=
  { id := "t-9", ticker := "MSFT", entryDate := "2024-02-01", entryPrice := 50,
    shares := 4, strategy := "Swing", notes := "earnings play", status := "closed",
    exitDate := some "2024-03-01", exitPrice := some 60,
    pnl := some 40, isWin := some true }

/-- C1: after every ledger mutation (save, update, delete, or bulk import
replacement) the persisted local-storage snapshot equals the in-memory trade
sequence — each operation's final persistence step rewrites the full
sequence, so the invariant holds after each operation of any sequence. -/
theorem ledger_persistence_invariant :
    (∀ (s : AppState) (op : LedgerOp),
      (applyOp s op).storage = (applyOp s op).trades) ∧
    (∀ (s : AppState) (ops : List LedgerOp), s.storage = s.trades →
      (applyOps s ops).storage = (applyOps s ops).trades) := by
  constructor
  · intro s op
    rfl
  · intro s ops h
    induction ops generalizing s with
    | nil => exact h
    | cons op rest ih =>
      simp only [applyOps, List.foldl_cons]
      exact ih (applyOp s op) rfl

/-- Witness for C1 at a concrete state and operation sequence. -/
theorem ledger_persistence_invariant_witness :
    (applyOps ⟨[], []⟩ [LedgerOp.save sampleOpenTrade,
        LedgerOp.delete "t-1" true]).storage =
      (applyOps ⟨[], []⟩ [LedgerOp.save sampleOpenTrade,
        LedgerOp.delete "t-1" true]).trades :=
  ledger_persistence_invariant.2 ⟨[], []⟩
    [LedgerOp.save sampleOpenTrade, LedgerOp.delete "t-1" true] rfl

/-- Counterexample to C2: saving a trade whose id is absent from the ledger
does not fail with a NotFoundError — the save succeeds and commits the trade
by prepending it to the sequence. -/
theorem save_missing_id_inserts :
    handleSaveTrade sampleOpenTrade [] = [sampleOpenTrade] := rfl

/-- C2 as amended: if some entry has the saved trade's id, the save replaces
the (first) matching entry in place, preserving its position, length and all
other entries; if no entry has that id, the save inserts the trade at the
head of the sequence instead of failing. -/
theorem handleSaveTrade_upsert (trade : Trade) (prevTrades : List Trade) :
    (∀ i, prevTrades.findIdx? (fun t => t.id == trade.id) = some i →
      i < prevTrades.length ∧
      handleSaveTrade trade prevTrades = prevTrades.set i trade ∧
      (handleSaveTrade trade prevTrades).length = prevTrades.length ∧
      (handleSaveTrade trade prevTrades)[i]? = some trade ∧
      ∀ j, j ≠ i → (handleSaveTrade trade prevTrades)[j]? = prevTrades[j]?) ∧
    ((∀ t ∈ prevTrades, t.id ≠ trade.id) →
      handleSaveTrade trade prevTrades = trade :: prevTrades) := by
  constructor
  · intro i hi
    have hlen : i < prevTrades.length := by
      rw [List.findIdx?_eq_some_iff_findIdx_eq] at hi
      exact hi.1
    have heq : handleSaveTrade trade prevTrades = prevTrades.set i trade := by
      unfold handleSaveTrade
      rw [hi]
    refine ⟨hlen, heq, ?_, ?_, ?_⟩
    · rw [heq, List.length_set]
    · rw [heq]
      exact List.getElem?_set_self hlen
    · intro j hj
      rw [heq]
      exact List.getElem?_set_ne (Ne.symm hj)
  · intro h
    have hnone : prevTrades.findIdx? (fun t => t.id == trade.id) = none :=
      List.findIdx?_eq_none_iff.mpr (fun x hx => beq_eq_false_iff_ne.mpr (h x hx))
    unfold handleSaveTrade
    rw [hnone]

/-- Witness for C2's amended theorem at a concrete ledger. -/
theorem handleSaveTrade_upsert_witness :
    handleSaveTrade sampleOpenTrade [sampleClosedTrade] =
      [sampleOpenTrade, sampleClosedTrade] :=
  (handleSaveTrade_upsert sampleOpenTrade [sampleClosedTrade]).2
    (by decide)

/-- The status committed by `TradeModal.handleSubmit` is recomputed from the
closing test on every save. -/
theorem tradeModalSubmit_status (form : TradeForm) (tradeToEdit : Option Trade)
    (newId : String) (imageBase64 : Option String) (analysis : String) :
    (tradeModalSubmit form tradeToEdit newId imageBase64 analysis).status =
      if tradeModalIsClosing form then "closed" else "open" := rfl

/-- The `pnl` committed by `TradeModal.handleSubmit`. -/
theorem tradeModalSubmit_pnl (form : TradeForm) (tradeToEdit : Option Trade)
    (newId : String) (imageBase64 : Option String) (analysis : String) :
    (tradeModalSubmit form tradeToEdit newId imageBase64 analysis).pnl =
      if tradeModalIsClosing form then
        some ((form.exitPrice - form.entryPrice) * form.shares)
      else none := rfl

/-- The `isWin` committed by `TradeModal.handleSubmit`. -/
theorem tradeModalSubmit_isWin (form : TradeForm) (tradeToEdit : Option Trade)
    (newId : String) (imageBase64 : Option String) (analysis : String) :
    (tradeModalSubmit form tradeToEdit newId imageBase64 analysis).isWin =
      if tradeModalIsClosing form then
        some (decide (0 < (form.exitPrice - form.entryPrice) * form.shares))
      else none := rfl

/-- The closing test holds exactly for a nonempty exit date and a positive
exit price. -/
theorem tradeModalIsClosing_iff (form : TradeForm) :
    tradeModalIsClosing form = true ↔ form.exitDate ≠ "" ∧ 0 < form.exitPrice := by
  unfold tradeModalIsClosing
  simp only [Bool.and_eq_true, bne_iff_ne, decide_eq_true_eq]
  constructor
  · rintro ⟨⟨h1, _⟩, h3⟩
    exact ⟨h1, h3⟩
  · rintro ⟨h1, h3⟩
    exact ⟨⟨h1, ne_of_gt h3⟩, h3⟩

/-- The edit form obtained by clearing the exit date of the prefilled sample
closed trade. -/
def reopenForm : TradeForm :=
  { prefillForm sampleClosedTrade with exitDate := "" }

/-- The trade committed when that cleared form is saved. -/
def reopenedTrade : Trade :=
  tradeModalSubmit reopenForm (some sampleClosedTrade)
    "2024-04-01T00:00:00.000Z" none ""

/-- Counterexample to C3: a closed trade is reachable into the edit modal,
and saving it with the exit date cleared commits an open trade under the
same id back into the ledger — closing is not one-way. -/
theorem closed_trade_reopened :
    sampleClosedTrade.status = "closed" ∧
    reopenedTrade.id = sampleClosedTrade.id ∧
    reopenedTrade.status = "open" ∧
    handleSaveTrade reopenedTrade [sampleClosedTrade] = [reopenedTrade] := by
  decide

/-- C3 as amended: each save of the edit modal recomputes the status from the
form's exit fields — the committed trade is closed iff the form holds a
nonempty exit date and a positive exit price, so clearing those fields on a
closed trade reopens it under the same id; only the exit modal is one-way,
committing closed trades exclusively. -/
theorem status_recomputed_from_exit_fields :
    (∀ (form : TradeForm) (tradeToEdit : Option Trade) (newId : String)
        (imageBase64 : Option String) (analysis : String),
      (tradeModalSubmit form tradeToEdit newId imageBase64 analysis).status = "closed" ↔
        (form.exitDate ≠ "" ∧ 0 < form.exitPrice)) ∧
    (∀ (selectedTrade : Option Trade) (exitDate : String) (exitPrice : ℚ)
        (notes : String) (t : Trade),
      exitTradeModalSubmit selectedTrade exitDate exitPrice notes = some t →
      t.status = "closed") := by
  constructor
  · intro form tradeToEdit newId imageBase64 analysis
    rw [tradeModalSubmit_status]
    by_cases h : tradeModalIsClosing form = true
    · simp only [h, if_true]
      exact ⟨fun _ => (tradeModalIsClosing_iff form).mp h, fun _ => trivial⟩
    · have hb : tradeModalIsClosing form = false := by
        cases hh : tradeModalIsClosing form
        · rfl
        · exact absurd hh h
      simp only [hb, Bool.false_eq_true, if_false]
      constructor
      · intro habs
        exact absurd habs (by decide)
      · intro hr
        have hc := (tradeModalIsClosing_iff form).mpr hr
        rw [hb] at hc
        exact absurd hc (by decide)
  · intro selectedTrade exitDate exitPrice notes t h
    cases selectedTrade with
    | none => exact absurd h (by simp [exitTradeModalSubmit])
    | some tr =>
      simp only [exitTradeModalSubmit] at h
      by_cases hg : exitDate = "" ∨ exitPrice = 0 ∨ exitPrice ≤ 0
      · rw [if_pos hg] at h
        exact absurd h (by simp)
      · rw [if_neg hg] at h
        have hx := Option.some.inj h
        subst hx
        rfl

/-- The result of closing the sample open trade through the exit modal. -/
def sampleExitedTrade : Trade :=
  { sampleOpenTrade with
      status := "closed"
      exitDate := some "2024-05-01"
      exitPrice := some 120
      pnl := some 200
      isWin := some true
      notes := "momentum setup\n\nExit Notes: took profit" }

/-- Witness for C3's amended theorem at a concrete exit-modal commit. -/
theorem status_recomputed_from_exit_fields_witness :
    sampleExitedTrade.status = "closed" :=
  status_recomputed_from_exit_fields.2 (some sampleOpenTrade) "2024-05-01" 120
    "took profit" sampleExitedTrade (by
      have h : ¬((("2024-05-01" : String) = "") ∨ ((120 : ℚ) = 0) ∨ ((120 : ℚ) ≤ 0)) := by
        rintro (h1 | h2 | h3)
        · exact absurd h1 (by decide)
        · norm_num at h2
        · norm_num at h3
      simp only [exitTradeModalSubmit, h, if_false, sampleOpenTrade, sampleExitedTrade,
        Option.some.injEq, Trade.mk.injEq]
      norm_num
      decide)

/-- C4: for a trade that was closed through a closing path (its stored `pnl`
was computed from its exit price at that instant and `isWin` from that
`pnl`), re-saving it through the edit modal with only the notes changed
leaves the stored `pnl` and `isWin` values unchanged (the save recomputes
them from the same frozen entry/exit figures) and keeps the trade closed. -/
theorem notes_edit_preserves_frozen_pnl
    (t : Trade) (newNotes newId : String) (imageBase64 : Option String)
    (analysis : String) (d : String) (p : ℚ)
    (hd : t.exitDate = some d) (hdne : d ≠ "")
    (hp : t.exitPrice = some p) (hppos : 0 < p)
    (hpnl : t.pnl = some ((p - t.entryPrice) * t.shares))
    (hwin : t.isWin = some (decide (0 < (p - t.entryPrice) * t.shares))) :
    (tradeModalSubmit { prefillForm t with notes := newNotes } (some t) newId
        imageBase64 analysis).pnl = t.pnl ∧
    (tradeModalSubmit { prefillForm t with notes := newNotes } (some t) newId
        imageBase64 analysis).isWin = t.isWin ∧
    (tradeModalSubmit { prefillForm t with notes := newNotes } (some t) newId
        imageBase64 analysis).status = "closed" := by
  have hed : ({ prefillForm t with notes := newNotes } : TradeForm).exitDate = d := by
    simp [prefillForm, jsOrString, hd, hdne]
  have hep : ({ prefillForm t with notes := newNotes } : TradeForm).exitPrice = p := by
    simp [prefillForm, jsOrZero, hp]
  have hen : ({ prefillForm t with notes := newNotes } : TradeForm).entryPrice =
      t.entryPrice := by
    simp [prefillForm]
  have hsh : ({ prefillForm t with notes := newNotes } : TradeForm).shares = t.shares := by
    simp [prefillForm]
  have hcl : tradeModalIsClosing { prefillForm t with notes := newNotes } = true :=
    (tradeModalIsClosing_iff _).mpr
      ⟨by rw [hed]; exact hdne, by rw [hep]; exact hppos⟩
  refine ⟨?_, ?_, ?_⟩
  · rw [tradeModalSubmit_pnl]
    simp only [hcl, if_true]
    rw [hep, hen, hsh, hpnl]
  · rw [tradeModalSubmit_isWin]
    simp only [hcl, if_true]
    rw [hep, hen, hsh, hwin]
  · rw [tradeModalSubmit_status]
    simp only [hcl, if_true]

/-- Witness for C4 at the sample closed trade with an edited note. -/
theorem notes_edit_preserves_frozen_pnl_witness :
    (tradeModalSubmit { prefillForm sampleClosedTrade with notes := "edited" }
        (some sampleClosedTrade) "nid" none "").pnl = sampleClosedTrade.pnl ∧
    (tradeModalSubmit { prefillForm sampleClosedTrade with notes := "edited" }
        (some sampleClosedTrade) "nid" none "").isWin = sampleClosedTrade.isWin ∧
    (tradeModalSubmit { prefillForm sampleClosedTrade with notes := "edited" }
        (some sampleClosedTrade) "nid" none "").status = "closed" :=
  notes_edit_preserves_frozen_pnl sampleClosedTrade "edited" "nid" none ""
    "2024-03-01" 60 rfl (by decide) rfl (by norm_num)
    (by simp only [sampleClosedTrade]; norm_num)
    (by simp only [sampleClosedTrade]; norm_num)

/-- C5: the win rate of a ledger with no closed trades is 0 (no division by
zero), and with N > 0 closed trades of which W are wins it is exactly
100 × W / N. -/
theorem winRate_spec (trades : List Trade) :
    ((closedTrades trades).length = 0 → winRate trades = 0) ∧
    (0 < (closedTrades trades).length →
      winRate trades =
        100 * (winningTradesCount trades : ℚ) / ((closedTrades trades).length : ℚ)) := by
  constructor
  · intro h
    simp [winRate, h]
  · intro h
    unfold winRate
    rw [if_pos h]
    ring

/-- Witness for C5 on a one-trade ledger (N = 1, W = 1). -/
theorem winRate_spec_witness :
    winRate [sampleClosedTrade] =
      100 * (winningTradesCount [sampleClosedTrade] : ℚ) /
        ((closedTrades [sampleClosedTrade]).length : ℚ) :=
  (winRate_spec [sampleClosedTrade]).2 (by decide)

/-- The contribution of one trade to the unrealized P/L: its live price when
`typeof currentPrice === 'number'`, nothing when the ticker is absent from
the price map or mapped to `null`. -/
def unrealizedContribution (liveData : List (String × Option ℚ)) (trade : Trade) :
    Option ℚ :=
  match lookupPrice liveData trade.ticker with
  | some (some currentPrice) => some ((currentPrice - trade.entryPrice) * trade.shares)
  | _ => none

/-- The reduce of `totalUnrealizedPnl` accumulates exactly the known-price
contributions. -/
theorem unrealizedFold (liveData : List (String × Option ℚ)) (l : List Trade)
    (acc : ℚ) :
    l.foldl
      (fun acc trade =>
        match lookupPrice liveData trade.ticker with
        | some (some currentPrice) => acc + (currentPrice - trade.entryPrice) * trade.shares
        | _ => acc)
      acc =
    acc + (l.filterMap (unrealizedContribution liveData)).sum := by
  induction l generalizing acc with
  | nil => simp
  | cons t rest ih =>
    simp only [List.foldl_cons, List.filterMap_cons]
    cases h : lookupPrice liveData t.ticker with
    | none =>
      simp only [unrealizedContribution, h]
      exact ih acc
    | some o =>
      cases o with
      | none =>
        simp only [unrealizedContribution, h]
        exact ih acc
      | some price =>
        simp only [unrealizedContribution, h, List.sum_cons]
        rw [ih]
        ring

/-- C6: the unrealized P/L is the sum over open trades with a known numeric
live price of `(livePrice - entryPrice) * shares`; an open trade whose
ticker is absent from the map or priced `null` contributes nothing, and the
total is 0 for an empty price map or no open trades. -/
theorem totalUnrealizedPnl_spec (liveData : List (String × Option ℚ))
    (trades : List Trade) :
    totalUnrealizedPnl liveData trades =
      ((openTrades trades).filterMap (unrealizedContribution liveData)).sum ∧
    totalUnrealizedPnl [] trades = 0 ∧
    (openTrades trades = [] → totalUnrealizedPnl liveData trades = 0) ∧
    (∀ t, lookupPrice liveData t.ticker = none ∨
        lookupPrice liveData t.ticker = some none →
      unrealizedContribution liveData t = none) := by
  refine ⟨?_, ?_, ?_, ?_⟩
  · unfold totalUnrealizedPnl
    rw [unrealizedFold, zero_add]
  · unfold totalUnrealizedPnl
    rw [unrealizedFold, zero_add]
    have h : (openTrades trades).filterMap (unrealizedContribution []) = [] :=
      List.filterMap_eq_nil_iff.mpr (fun a _ => rfl)
    rw [h]
    rfl
  · intro h
    unfold totalUnrealizedPnl
    rw [h]
    rfl
  · intro t h
    rcases h with h1 | h1 <;> simp [unrealizedContribution, h1]

/-- A sample live-price map: AAPL has a numeric price, TSLA is `null`. -/
def demoLiveData : List (String × Option ℚ) :=
  [("AAPL", some 110), ("TSLA", none)]

/-- Witness for C6 on a ledger with no open trades. -/
theorem totalUnrealizedPnl_spec_witness :
    totalUnrealizedPnl demoLiveData [sampleClosedTrade] = 0 :=
  (totalUnrealizedPnl_spec demoLiveData [sampleClosedTrade]).2.2.1 (by decide)

/-- The chart fold produces one point per sorted closed trade. -/
theorem buildChartData_length (idx : Nat) (c : ℚ) (l : List Trade) :
    (buildChartData idx c l).length = l.length := by
  induction l generalizing idx c with
  | nil => rfl
  | cons t rest ih => simp [buildChartData, ih]

/-- Each chart point carries the pnl of its own trade. -/
theorem buildChartData_map_pnl (idx : Nat) (c : ℚ) (l : List Trade) :
    (buildChartData idx c l).map (fun pt => pt.pnl) = l.map (fun t => t.pnl) := by
  induction l generalizing idx c with
  | nil => rfl
  | cons t rest ih => simp [buildChartData, ih]

/-- Each chart point carries the running total of the pnls up to and
including its own trade, on top of the starting accumulator. -/
theorem buildChartData_cumulative (l : List Trade) :
    ∀ (idx : Nat) (c : ℚ) (i : Nat) (h : i < (buildChartData idx c l).length),
      ((buildChartData idx c l).get ⟨i, h⟩).cumulativePnl =
        c + ((l.take (i + 1)).map (fun t => jsOrZero t.pnl)).sum := by
  induction l with
  | nil =>
    intro idx c i h
    simp [buildChartData] at h
  | cons t rest ih =>
    intro idx c i h
    cases i with
    | zero => simp [buildChartData]
    | succ i =>
      have h' : i < (buildChartData (idx + 1) (c + jsOrZero t.pnl) rest).length := by
        simpa [buildChartData] using h
      have hstep :
          ((buildChartData idx c (t :: rest)).get ⟨i + 1, h⟩).cumulativePnl =
            ((buildChartData (idx + 1) (c + jsOrZero t.pnl) rest).get ⟨i, h'⟩).cumulativePnl := by
        simp [buildChartData]
      rw [hstep, ih]
      simp [List.take_succ_cons]
      ring

/-- The entry-date key order is transitive. -/
theorem entryDateLe_trans (getTime : String → Int) :
    ∀ a b c : Trade, entryDateLe getTime a b → entryDateLe getTime b c →
      entryDateLe getTime a c := by
  intro a b c hab hbc
  simp only [entryDateLe, decide_eq_true_eq] at *
  exact le_trans hab hbc

/-- The entry-date key order is total. -/
theorem entryDateLe_total (getTime : String → Int) :
    ∀ a b : Trade, entryDateLe getTime a b || entryDateLe getTime b a := by
  intro a b
  simp only [entryDateLe, Bool.or_eq_true, decide_eq_true_eq]
  exact Int.le_total _ _

/-- C7: the equity curve is built from the closed trades stably sorted
ascending by entry date — the point list pairs each sorted closed trade's
own pnl with the cumulative pnl of the sorted prefix ending at it; the
sorted sequence is a permutation of the closed trades, is ordered by the
date key, and preserves the original relative order of trades sharing a
date key (stability). -/
theorem chartData_spec (getTime : String → Int) (trades : List Trade) :
    (chartData getTime trades).map (fun pt => pt.pnl) =
      (sortedClosedTrades getTime trades).map (fun t => t.pnl) ∧
    (∀ (i : Nat) (h : i < (chartData getTime trades).length),
      ((chartData getTime trades).get ⟨i, h⟩).cumulativePnl =
        (((sortedClosedTrades getTime trades).take (i + 1)).map
          (fun t => jsOrZero t.pnl)).sum) ∧
    List.Perm (sortedClosedTrades getTime trades) (closedTrades trades) ∧
    (sortedClosedTrades getTime trades).Pairwise
      (fun a b => getTime a.entryDate ≤ getTime b.entryDate) ∧
    (∀ k : Int,
      (closedTrades trades).filter (fun t => getTime t.entryDate == k) =
        (sortedClosedTrades getTime trades).filter
          (fun t => getTime t.entryDate == k)) := by
  refine ⟨?_, ?_, ?_, ?_, ?_⟩
  · exact buildChartData_map_pnl 0 0 _
  · intro i h
    unfold chartData at h ⊢
    rw [buildChartData_cumulative _ 0 0 i h, zero_add]
  · exact List.mergeSort_perm _ _
  · have hs := List.sorted_mergeSort
      (entryDateLe_trans getTime) (entryDateLe_total getTime) (closedTrades trades)
    exact hs.imp (fun h => by simpa [entryDateLe] using h)
  · intro k
    have hmem : ∀ t ∈ (closedTrades trades).filter
        (fun t => getTime t.entryDate == k), getTime t.entryDate = k := by
      intro t ht
      have := (List.mem_filter.mp ht).2
      simpa using this
    have hpw : ((closedTrades trades).filter
        (fun t => getTime t.entryDate == k)).Pairwise
        (fun a b => entryDateLe getTime a b = true) := by
      refine List.pairwise_of_forall_mem_list ?_
      intro a ha b hb
      simp [entryDateLe, hmem a ha, hmem b hb]
    have hsub : List.Sublist
        ((closedTrades trades).filter (fun t => getTime t.entryDate == k))
        (sortedClosedTrades getTime trades) :=
      List.sublist_mergeSort (entryDateLe_trans getTime) (entryDateLe_total getTime)
        hpw (List.filter_sublist _)
    have hself : ((closedTrades trades).filter (fun t => getTime t.entryDate == k)).filter
        (fun t => getTime t.entryDate == k) =
        (closedTrades trades).filter (fun t => getTime t.entryDate == k) :=
      List.filter_eq_self.mpr (fun a ha => (List.mem_filter.mp ha).2)
    have h1 : List.Sublist
        ((closedTrades trades).filter (fun t => getTime t.entryDate == k))
        ((sortedClosedTrades getTime trades).filter
          (fun t => getTime t.entryDate == k)) := by
      have := hsub.filter (fun t => getTime t.entryDate == k)
      rwa [hself] at this
    have hperm : List.Perm ((sortedClosedTrades getTime trades).filter
        (fun t => getTime t.entryDate == k))
        ((closedTrades trades).filter (fun t => getTime t.entryDate == k)) :=
      (List.mergeSort_perm (closedTrades trades) (entryDateLe getTime)).filter _
    exact h1.eq_of_length hperm.length_eq.symm

/-- A concrete stand-in for `new Date(s).getTime()` used in witnesses. -/
def demoGetTime : String → Int := fun s => (s.length : Int)

/-- Witness for C7: the first chart point of a one-closed-trade ledger holds
the cumulative pnl of the one-trade sorted prefix. -/
theorem chartData_spec_witness :
    ((chartData demoGetTime [sampleClosedTrade]).get
        ⟨0, by
          have h1 : (chartData demoGetTime [sampleClosedTrade]).length =
              (closedTrades [sampleClosedTrade]).length := by
            unfold chartData sortedClosedTrades
            rw [buildChartData_length, List.length_mergeSort]
          rw [h1]
          decide⟩).cumulativePnl =
      (((sortedClosedTrades demoGetTime [sampleClosedTrade]).take 1).map
        (fun t => jsOrZero t.pnl)).sum :=
  (chartData_spec demoGetTime [sampleClosedTrade]).2.1 0 _

/-- Undoubling walks over a doubled quote pair. -/
theorem csvUnquote_quote_pair (M : List Char) :
    csvUnquote ('\"' :: '\"' :: M) = '\"' :: csvUnquote M := by
  simp [csvUnquote]

/-- Undoubling walks over any non-quote head character. -/
theorem csvUnquote_cons_ne (d : Char) (hd : d ≠ '\"') (M : List Char) :
    csvUnquote (d :: M) = d :: csvUnquote M := by
  cases M with
  | nil => simp [csvUnquote]
  | cons m rest => simp [csvUnquote, hd]

/-- Undoubling inverts quote doubling, through the newline flattening. -/
theorem csvUnquote_escaped (v : List Char) :
    csvUnquote ((escapeQuotes v).map newlineToSpace) = v.map newlineToSpace := by
  induction v with
  | nil => rfl
  | cons c rest ih =>
    by_cases hc : c = '\"'
    · subst hc
      have he : escapeQuotes ('\"' :: rest) = '\"' :: '\"' :: escapeQuotes rest := by
        simp [escapeQuotes, doubleQuoteChar]
      rw [he]
      have hq : newlineToSpace '\"' = '\"' := by decide
      simp only [List.map_cons, hq, csvUnquote_quote_pair, ih]
    · have he : escapeQuotes (c :: rest) = c :: escapeQuotes rest := by
        simp [escapeQuotes, doubleQuoteChar, hc]
      rw [he]
      have hne : newlineToSpace c ≠ '\"' := by
        unfold newlineToSpace
        by_cases hn : c = '\n'
        · rw [if_pos hn]
          decide
        · rw [if_neg hn]
          exact hc
      simp only [List.map_cons, csvUnquote_cons_ne _ hne, ih]

/-- Parsing the serialized field undoes the quote wrapping and doubling but
keeps the newline flattening. -/
theorem csvParse_csvStringField (v : List Char) :
    csvParseStringField (csvStringField v) = v.map newlineToSpace := by
  show csvUnquote (((escapeQuotes v).map newlineToSpace ++ ['\"']).dropLast) =
    v.map newlineToSpace
  rw [List.dropLast_concat]
  exact csvUnquote_escaped v

/-- A notes text holding both the delimiter and a newline. -/
def demoNotes : List Char := ['a', ',', 'b', '\n', 'c']

/-- Counterexample to C8: for a notes field containing a comma and a
newline, exporting and re-parsing the field does not reproduce the original
string — the export replaces the newline with a space. -/
theorem csv_roundtrip_fails :
    (',' ∈ demoNotes) ∧ ('\n' ∈ demoNotes) ∧
    csvParseStringField (csvStringField demoNotes) ≠ demoNotes := by
  decide

/-- C8 as amended: the CSV export wraps each string field in quotes with
embedded quotes doubled, but replaces each newline with a space; parsing the
field back yields the original notes with newlines flattened to spaces, so
the round trip is the identity exactly on notes without a newline (commas
and quotes are preserved). -/
theorem csv_field_roundtrip (v : List Char) :
    csvParseStringField (csvStringField v) = v.map newlineToSpace ∧
    ('\n' ∉ v → csvParseStringField (csvStringField v) = v) := by
  refine ⟨csvParse_csvStringField v, ?_⟩
  intro h
  rw [csvParse_csvStringField]
  have hid : ∀ c ∈ v, newlineToSpace c = c := by
    intro c hc
    unfold newlineToSpace
    rw [if_neg]
    intro he
    exact h (he ▸ hc)
  rw [List.map_congr_left hid]
  exact List.map_id v

/-- A notes text with a comma and a quote but no newline. -/
def demoNotesNoNewline : List Char := ['a', ',', 'b', '\"', 'c']

/-- Witness for C8's amended theorem: exact round trip on newline-free notes
holding a comma and a quote. -/
theorem csv_field_roundtrip_witness :
    csvParseStringField (csvStringField demoNotesNoNewline) = demoNotesNoNewline :=
  (csv_field_roundtrip demoNotesNoNewline).2 (by decide)

/-- The constant-`NaN` stand-in for `parseFloat` used in concrete rows whose
numeric cells never parse. -/
def pfNone : String → Option ℚ := fun _ => none

/-- A four-cell row: id, ticker and entry date present, no status cell, no
exit price cell, no pnl cell. -/
def demoShortRow : List String := ["id1", "TICK", "2024-01-01", "100"]

/-- Counterexample to C9: this row's status cell is absent (it certainly does
not explicitly say closed) and its exit price and pnl cells are absent, yet
the import reconstructs the trade as closed (with the missing numbers
defaulted to 0) instead of open. -/
theorem sheet_row_defaults_closed :
    demoShortRow.get? 7 = none ∧
    demoShortRow.get? 9 = none ∧
    demoShortRow.get? 10 = none ∧
    (parseSheetRow pfNone "fresh" demoShortRow).map (fun t => t.status) =
      some "closed" ∧
    (parseSheetRow pfNone "fresh" demoShortRow).map (fun t => t.exitPrice) =
      some (some 0) ∧
    (parseSheetRow pfNone "fresh" demoShortRow).map (fun t => t.pnl) =
      some (some 0) := by
  decide

/-- C9 as amended: an imported row is reconstructed as open iff its status
cell is exactly the string open; any other or absent status yields a closed
trade, whose exit price and pnl are parsed from the row when present and
default to 0 when absent (their presence is not required), with the win flag
read from the result cell; an open reconstruction carries no exit price, pnl
or win flag. -/
theorem sheet_row_status_spec (pf : String → Option ℚ) (freshId : String)
    (row : List String) (t : Trade)
    (h : parseSheetRow pf freshId row = some t) :
    (t.status = "open" ↔ row.get? 7 = some "open") ∧
    (t.status = "closed" →
      t.exitPrice = some (parsedNumCell pf row 9) ∧
      t.pnl = some (parsedNumCell pf row 10) ∧
      t.isWin = some (decide (row.get? 11 = some "Win"))) ∧
    (t.status = "open" → t.exitPrice = none ∧ t.pnl = none ∧ t.isWin = none) := by
  simp only [parseSheetRow] at h
  split at h
  next hlen => exact absurd h (by simp)
  next hlen =>
    split at h
    next hok =>
      split at h
      next hst =>
        rw [if_neg (by decide : ¬("open" : String) = "closed")] at h
        have ht := Option.some.inj h
        subst ht
        refine ⟨iff_of_true rfl hst, ?_, ?_⟩
        · intro habs
          exact absurd (show ("open" : String) = "closed" from habs) (by decide)
        · intro _
          exact ⟨rfl, rfl, rfl⟩
      next hst =>
        rw [if_pos rfl] at h
        have ht := Option.some.inj h
        subst ht
        refine ⟨iff_of_false
          (fun hh => absurd (show ("closed" : String) = "open" from hh) (by decide))
          hst, ?_, ?_⟩
        · intro _
          exact ⟨rfl, rfl, rfl⟩
        · intro habs
          exact absurd (show ("closed" : String) = "open" from habs) (by decide)
    next hok => exact absurd h (by simp)

/-- A full closed row as synced back from the sheet. -/
def demoClosedRow : List String :=
  ["id2", "NVDA", "2024-01-05", "500", "2", "Swing", "n", "closed",
   "2024-02-05", "600", "200", "Win"]

/-- The trade that row parses to under the never-parsing `parseFloat`
stand-in (every numeric cell defaults to 0 through `|| 0`). -/
def demoParsedTrade : Trade :=
  { id := "id2", ticker := "NVDA", entryDate := "2024-01-05", entryPrice := 0,
    shares := 0, strategy := "Swing", notes := "n", status := "closed",
    exitDate := some "2024-02-05", exitPrice := some 0,
    pnl := some 0, isWin := some true }

/-- Witness for C9's amended theorem at a concrete closed row. -/
theorem sheet_row_status_spec_witness :
    demoParsedTrade.exitPrice = some (parsedNumCell pfNone demoClosedRow 9) ∧
    demoParsedTrade.pnl = some (parsedNumCell pfNone demoClosedRow 10) ∧
    demoParsedTrade.isWin = some (decide (demoClosedRow.get? 11 = some "Win")) :=
  (sheet_row_status_spec pfNone "f" demoClosedRow demoParsedTrade (by decide)).2.1
    (by decide)

/-- A finite-table `parseFloat` stand-in for concrete import scenarios. -/
def demoParseFloat : String → Option ℚ := fun s =>
  if s = "100" then some 100
  else if s = "10" then some 10
  else if s = "200" then some 200
  else if s = "5" then some 5
  else none

/-- The generated fallback ids of the import, one per row index. -/
def demoFreshId : Nat → String := fun i => "sheet-import-" ++ toString i

/-- Three inbound rows: two valid open trades around one malformed row with
an empty ticker cell. -/
def demoRows : List (List String) :=
  [["a1", "AAPL", "2024-01-02", "100", "10", "Breakout", "n1", "open"],
   ["b1", "", "2024-01-03", "5"],
   ["c1", "TSLA", "2024-01-04", "200", "5", "Swing", "n2", "open"]]

/-- The first valid trade of `demoRows`. -/
def demoImportedA : Trade :=
  { id := "a1", ticker := "AAPL", entryDate := "2024-01-02", entryPrice := 100,
    shares := 10, strategy := "Breakout", notes := "n1", status := "open" }

/-- The second valid trade of `demoRows`. -/
def demoImportedC : Trade :=
  { id := "c1", ticker := "TSLA", entryDate := "2024-01-04", entryPrice := 200,
    shares := 5, strategy := "Swing", notes := "n2", status := "open" }

/-- C10: a row whose ticker or entry date is missing is discarded (the rest
of the rows keep importing rather than aborting), and importing the concrete
three-row payload with one malformed row succeeds with exactly the two
valid trades. -/
theorem sheet_import_tolerance :
    (∀ (pf : String → Option ℚ) (freshId : String) (row : List String),
      cellOr row 1 "" = "" ∨ cellOr row 2 "" = "" →
      parseSheetRow pf freshId row = none) ∧
    fetchTradesFromSheet demoParseFloat demoFreshId demoRows =
      [demoImportedA, demoImportedC] := by
  constructor
  · intro pf freshId row h
    simp only [parseSheetRow]
    by_cases hlen : row.length < 4
    · rw [if_pos hlen]
    · rw [if_neg hlen]
      have hok : ¬(cellOr row 1 "" ≠ "" ∧ cellOr row 2 "" ≠ "") := by
        rcases h with h1 | h1
        · exact fun hc => hc.1 h1
        · exact fun hc => hc.2 h1
      rw [if_neg hok]
  · decide

/-- Witness for C10's discard rule at the malformed row. -/
theorem sheet_import_tolerance_witness :
    parseSheetRow demoParseFloat "f" ["b1", "", "2024-01-03", "5"] = none :=
  sheet_import_tolerance.1 demoParseFloat "f" ["b1", "", "2024-01-03", "5"]
    (by decide)
